import Mathlib

/-!
Shallow embedding of the ReAct step-loop controller and reply parser from
`onetwo/agents/react.py`, together with the pieces of its data model
(`ReActStep`, `ReActState`) that the verified properties are about.

Python strings are modelled as `List Char` (wrapped into `String` for the
record fields); machine behaviour that matters (slicing, `strip`, `split`,
first-occurrence search) is translated explicitly.  The three marker
parameters of `react_parse` are regular expressions in the source, but the
defaults (`\[Act\]:` etc.) are regex-escaped literals, so marker search is
modelled as literal first-occurrence substring search on the literal text the
default patterns match.
-/

namespace OneTwo

/-- The six ASCII whitespace characters stripped by Python `str.strip()`. -/
def isPySpace (c : Char) : Bool :=
  c = ' ' || c = '\t' || c = '\n' || c = '\r' || c = '\x0b' || c = '\x0c'

/-- Python `str.lstrip()`: drop leading whitespace. -/
def pyStripLeft (s : List Char) : List Char :=
  s.dropWhile isPySpace

/-- Python `str.rstrip()`: drop trailing whitespace (recursive form). -/
def pyStripRight : List Char → List Char
  | [] => []
  | c :: cs =>
    match pyStripRight cs with
    | [] => if isPySpace c then [] else [c]
    | r => c :: r

/-- Python `str.strip()`: drop whitespace at both ends. -/
def pyStrip (s : List Char) : List Char :=
  pyStripRight (pyStripLeft s)

/-- `str.strip()` on Lean strings. -/
def pyStripS (s : String) : String :=
  ⟨pyStrip s.data⟩

/-- Index of the first occurrence of `pat` in `s` (`re.search` on a literal
pattern; `none` when there is no match). -/
def findSub (pat : List Char) : List Char → Option Nat
  | [] => if pat.isEmpty then some 0 else Option.none
  | c :: cs =>
    if pat.isPrefixOf (c :: cs) then some 0
    else (findSub pat cs).map (· + 1)

/-- `match.span()` of the first occurrence of `pat` in `text`, with the
absent-marker sentinel of `react_parse`: when there is no match, both ends
are `text.length`. -/
def markerSpan (pat text : List Char) : Nat × Nat :=
  match findSub pat text with
  | some i => (i, i + pat.length)
  | Option.none => (text.length, text.length)

/-- Python `s.split(sep)[0]` for a non-empty separator: the part of `s`
before the first occurrence of `sep` (all of `s` when `sep` is absent). -/
def takeBeforeFirst (pat s : List Char) : List Char :=
  match findSub pat s with
  | some i => s.take i
  | Option.none => s

/-- `llm_tool_use.ArgumentFormat` values used in `react.py`. -/
inductive ArgumentFormat where
  | PYTHON
  | YAML_CODE
deriving DecidableEq, Repr, Inhabited

/-- `llm_tool_use.FunctionCall`: a tool call descriptor. -/
structure FunctionCall where
  function_name : String
  args : List String
  kwargs : List (String × String)
deriving DecidableEq, Repr, Inhabited

/-- `ReActStep` from `react.py`: one step of the serializable agent state.
`observation` values are modelled as strings; an absent (`None`) observation
is `Option.none`. -/
structure ReActStep where
  is_finished : Bool := false
  thought : String := ""
  action : Option FunctionCall := Option.none
  observation : Option String := Option.none
  fmt : Option ArgumentFormat := Option.none
deriving DecidableEq, Repr, Inhabited

/-- `ReActState = agents_base.UpdateListState[str, ReActStep]`: the inputs
plus the append-only list of steps. -/
structure ReActState where
  inputs : String := ""
  updates : List ReActStep := []
deriving DecidableEq, Repr, Inhabited

/-- Modelled from the spec: the error-marker constant
(`constants.ERROR_STRING` from `onetwo/core/constants`, not under `src/`):
"a fixed prefix string used to tag recovered parse-error observations". -/
def ERROR_STRING : String := "ERROR"

/-- The recovered error step built by the `except ValueError` handler of
`react_parse`: `ReActStep(is_finished=False, observation=f'{ERROR_STRING}: {e}')`. -/
def errorStep (e : String) : ReActStep :=
  { is_finished := false
    thought := ""
    action := Option.none
    observation := some (ERROR_STRING ++ ": " ++ e)
    fmt := Option.none }

/-- The part of `llm_tool_use.parse_and_consume_call`'s return value that
`react_parse` uses: call name, positional args, keyword args, format. -/
structure ParsedCall where
  fn : String
  args : List String
  kwargs : List (String × String)
  fmt : Option ArgumentFormat
deriving DecidableEq, Repr, Inhabited

/-- Type of the tool-call extractor: given the text after the action marker,
either a parsed call or a `ValueError` message. -/
def CallExtractor : Type :=
  List Char → Except String ParsedCall

/-- `react_parse` from `react.py`, parametric in the tool-call extractor
(an external collaborator in the source).  Marker patterns are the literal
texts matched by the source's (regex-escaped literal) default patterns. -/
def react_parse (parse_and_consume_call : CallExtractor)
    (action_pattern thought_pattern finish_pattern : List Char)
    (final_stop_sequence : Option (List Char))
    (reply_text : List Char) : ReActStep :=
  let act := markerSpan action_pattern reply_text
  let tho := markerSpan thought_pattern reply_text
  let fin := markerSpan finish_pattern reply_text
  if act.1 < fin.1 then
    -- Act is first.
    let thought_content :=
      if tho.1 < act.1 then
        pyStrip ((reply_text.drop tho.2).take (act.1 - tho.2))
      else []
    let part_after_act := pyStrip (reply_text.drop act.2)
    match parse_and_consume_call part_after_act with
    | Except.ok r =>
      { is_finished := r.fn == "Finish"
        thought := ⟨thought_content⟩
        action := some ⟨r.fn, r.args, r.kwargs⟩
        observation := Option.none
        fmt := r.fmt }
    | Except.error e => errorStep e
  else if fin.1 < act.1 then
    -- Finish is first.
    let thought_content :=
      if tho.1 < fin.1 then
        pyStrip ((reply_text.drop tho.2).take (fin.1 - tho.2))
      else []
    let final_answer0 := pyStrip (reply_text.drop fin.2)
    let final_answer :=
      match final_stop_sequence with
      | some fss =>
        if fss.isEmpty then final_answer0
        else pyStrip (takeBeforeFirst fss final_answer0)
      | Option.none => final_answer0
    { is_finished := true
      thought := ⟨thought_content⟩
      action := Option.none
      observation := some ⟨final_answer⟩
      fmt := Option.none }
  else
    -- None found: the raised ValueError is caught by the handler below.
    errorStep ("Didn't find " ++ (⟨action_pattern⟩ : String) ++ " or "
      ++ (⟨finish_pattern⟩ : String))

/-- `react_parse` with the source's default marker patterns and default
`final_stop_sequence = '\n\n'`. -/
def react_parse_default (parse_and_consume_call : CallExtractor)
    (reply_text : String) : ReActStep :=
  react_parse parse_and_consume_call
    "[Act]:".data "[Thought]:".data "[Finish]:".data
    (some "\n\n".data) reply_text.data

/-- Characters allowed in a call name by the concrete extractor model. -/
def isIdentChar (c : Char) : Bool :=
  c.isAlpha || c.isDigit || c = '_'

/-- One double-quoted string argument: `"content"` followed by the rest. -/
def parseStringArg : List Char → Option (String × List Char)
  | '"' :: rest =>
    let content := rest.takeWhile (· ≠ '"')
    match rest.dropWhile (· ≠ '"') with
    | '"' :: r => some (⟨content⟩, r)
    | _ => Option.none
  | _ => Option.none

/-- Argument list after the opening parenthesis: `)` closes it, otherwise
double-quoted arguments separated by `, `.  `fuel` bounds the recursion. -/
def parseArgsList : Nat → List Char → Option (List String × List Char)
  | 0, _ => Option.none
  | _, ')' :: r => some ([], r)
  | fuel + 1, s =>
    match parseStringArg s with
    | some (a, r) =>
      match r with
      | ')' :: r2 => some ([a], r2)
      | ',' :: ' ' :: r2 =>
        (parseArgsList fuel r2).map (fun p => (a :: p.1, p.2))
      | _ => Option.none
    | Option.none => Option.none

/-- Modelled from the spec: the tool-call extractor
(`llm_tool_use.parse_and_consume_call`, an external collaborator not under
`src/`): "parses a formatted call expression into (name, positional args,
keyword args, rendering format)", raising a validation error on malformed
call syntax.  This model accepts python-format calls
`Name("arg1", "arg2", ...)` with double-quoted string positional arguments
and no keyword arguments, reports format `PYTHON`, ignores text after the
closing parenthesis (the source returns it as unconsumed remainder), and
fails with a validation error otherwise. -/
def specParseCall : CallExtractor := fun text =>
  let name := text.takeWhile isIdentChar
  let rest := text.dropWhile isIdentChar
  if name.isEmpty then
    Except.error ("Could not parse a function call from: " ++ (⟨text⟩ : String))
  else
    match rest with
    | '(' :: r =>
      match parseArgsList (r.length + 1) r with
      | some (args, _) =>
        Except.ok ⟨⟨name⟩, args, [], some ArgumentFormat.PYTHON⟩
      | Option.none =>
        Except.error ("Could not parse the argument list from: "
          ++ (⟨text⟩ : String))
    | _ =>
      Except.error ("Could not parse a function call from: "
        ++ (⟨text⟩ : String))

/-- A tool invocation performed against the tool-execution environment
(`environment.run_tool(tool_name=..., tool_args=..., tool_kwargs=...)`). -/
structure ToolCall where
  name : String
  args : List String
  kwargs : List (String × String)
deriving DecidableEq, Repr, Inhabited

/-- `ReActAgent._sample_single_next_step` from `react.py`, after the prompt
call: the LLM reply is passed in (`llm_reply_raw`), the tool-execution
environment is modelled as the function `run_tool`, and the returned list
records the tool invocations made during the iteration (empty when the
environment was never invoked). -/
def sample_single_next_step (parse : String → ReActStep) (max_steps : Nat)
    (run_tool : ToolCall → String) (state : ReActState)
    (llm_reply_raw : String) : ReActStep × List ToolCall :=
  let force_finish := state.updates.length ≥ max_steps
  let llm_reply := pyStripS llm_reply_raw ++ "\n"
  if force_finish then
    ({ is_finished := true
       thought := ""
       action := Option.none
       observation := some (pyStripS llm_reply)
       fmt := Option.none }, [])
  else
    let next_step := parse llm_reply
    match next_step.action with
    | some a =>
      let call : ToolCall := ⟨a.function_name, a.args, a.kwargs⟩
      ({ next_step with observation := some (run_tool call) }, [call])
    | Option.none => (next_step, [])

/-- `ReActAgent.is_finished`: `bool(state.updates and
state.updates[-1].is_finished)`. -/
def is_finished_state (state : ReActState) : Bool :=
  match state.updates.getLast? with
  | some st => st.is_finished
  | Option.none => false

/-- Python `str(answer)` for an optional string: `str(None) = "None"`. -/
def pyStr : Option String → String
  | Option.none => "None"
  | some s => s

/-- `ReActAgent.extract_output`: the string form of the last step's
observation when finished, `str(None)` otherwise. -/
def extract_output (state : ReActState) : String :=
  let answer : Option String :=
    match state.updates.getLast? with
    | some st => if st.is_finished then st.observation else Option.none
    | Option.none => Option.none
  pyStr answer

/-- `ReActAgent.initialize_state`: `ReActState(inputs=inputs)` with empty
`updates`. -/
def initialize_state (inputs : String) : ReActState :=
  { inputs := inputs, updates := [] }

/-- Modelled from the spec: one iteration of the outer step loop (driven by
the agents base class, not under `src/`): "the loop is driven externally by
repeatedly calling `advance` while state is RUNNING"; an iteration samples
the next step for the current state (with whatever reply the model returns
for that state) and appends it to `updates`; a finished state is left
unchanged. -/
def advance (parse : String → ReActStep) (max_steps : Nat)
    (run_tool : ToolCall → String) (replies : ReActState → String)
    (s : ReActState) : ReActState :=
  if is_finished_state s then s
  else
    { s with
      updates := s.updates
        ++ [(sample_single_next_step parse max_steps run_tool s (replies s)).1] }

/-- Modelled from the spec: `k` iterations of the outer step loop. -/
def run_loop (parse : String → ReActStep) (max_steps : Nat)
    (run_tool : ToolCall → String) (replies : ReActState → String) :
    Nat → ReActState → ReActState
  | 0, s => s
  | k + 1, s =>
    advance parse max_steps run_tool replies
      (run_loop parse max_steps run_tool replies k s)

/-- Modelled from the spec: the trajectory states reachable by the
controller: the initial state (empty `updates`), and any state obtained from
a reachable, not-yet-FINISHED state by appending the step produced by one
controller iteration (for arbitrary parser, step budget, environment and
model reply at each iteration). -/
inductive Reachable : ReActState → Prop
  | init (inputs : String) : Reachable (initialize_state inputs)
  | step (s : ReActState)
      (parse : String → ReActStep) (max_steps : Nat)
      (run_tool : ToolCall → String) (reply : String) :
      Reachable s → is_finished_state s = false →
      Reachable
        { s with
          updates := s.updates
            ++ [(sample_single_next_step parse max_steps run_tool s reply).1] }

/-- A constant tool-execution environment, for concrete instantiations. -/
def toolEnvConst (v : String) : ToolCall → String := fun _ => v

/-- The thought extracted by `react_parse` for a branch whose marker starts
at `cutoff`: the trimmed substring between the end of the thought marker and
`cutoff` when the thought marker strictly precedes it, else the empty
string. -/
def thoughtBefore (tP reply : List Char) (cutoff : Nat) : String :=
  if (markerSpan tP reply).1 < cutoff then
    ⟨pyStrip ((reply.drop (markerSpan tP reply).2).take
      (cutoff - (markerSpan tP reply).2))⟩
  else ""

/-- The final answer computed by the finish branch of `react_parse` from the
text after the finish marker: trim, then (for a configured non-empty stop
sequence) truncate at its first occurrence and trim again. -/
def finishAnswer (fss : Option (List Char)) (after : List Char) : List Char :=
  let final_answer0 := pyStrip after
  match fss with
  | some f => if f.isEmpty then final_answer0
              else pyStrip (takeBeforeFirst f final_answer0)
  | Option.none => final_answer0

/-- All steps of a trajectory except the last are not finished (the
last-is-finished invariant, as a decidable check on a state). -/
def all_but_last_unfinished (s : ReActState) : Bool :=
  s.updates.dropLast.all (fun st => !st.is_finished)

/-- The finish-branch observation as claim C6 words it, for comparison with
the source: the text after the finish marker, truncated at the first
occurrence of the final stop sequence, then trimmed (no initial trim). -/
def finishObservationClaimed (fP fss reply : List Char) : Option String :=
  some ⟨pyStrip (takeBeforeFirst fss (reply.drop (markerSpan fP reply).2))⟩

theorem dropWhile_idem (p : Char → Bool) (l : List Char) :
    List.dropWhile p (List.dropWhile p l) = List.dropWhile p l := by
  induction l with
  | nil => rfl
  | cons c cs ih =>
    by_cases h : p c
    · simp [List.dropWhile_cons, h, ih]
    · simp [List.dropWhile_cons, h]

theorem pyStripRight_cons (c : Char) (cs : List Char) :
    pyStripRight (c :: cs) = [] ∨ ∃ r, pyStripRight (c :: cs) = c :: r := by
  cases h : pyStripRight cs with
  | nil =>
    by_cases hc : isPySpace c
    · left; simp [pyStripRight, h, hc]
    · right; exact ⟨[], by simp [pyStripRight, h, hc]⟩
  | cons d ds =>
    right; exact ⟨d :: ds, by simp [pyStripRight, h]⟩

theorem pyStripRight_cons_of_ne_nil (c : Char) (l : List Char) (d : Char)
    (ds : List Char) (h : pyStripRight l = d :: ds) :
    pyStripRight (c :: l) = c :: d :: ds := by
  simp [pyStripRight, h]

theorem pyStripRight_idem (l : List Char) :
    pyStripRight (pyStripRight l) = pyStripRight l := by
  induction l with
  | nil => rfl
  | cons c cs ih =>
    cases h : pyStripRight cs with
    | nil =>
      by_cases hc : isPySpace c
      · simp [pyStripRight, h, hc]
      · simp [pyStripRight, h, hc]
    | cons d ds =>
      have h1 : pyStripRight (c :: cs) = c :: d :: ds :=
        pyStripRight_cons_of_ne_nil c cs d ds h
      have h2 : pyStripRight (d :: ds) = d :: ds := by
        rw [← h, ih, h]
      rw [h1]
      exact pyStripRight_cons_of_ne_nil c (d :: ds) d ds h2

theorem length_dropWhile_le (p : Char → Bool) (l : List Char) :
    (List.dropWhile p l).length ≤ l.length := by
  induction l with
  | nil => simp
  | cons c cs ih =>
    by_cases h : p c
    · rw [List.dropWhile_cons, if_pos h]
      exact Nat.le_trans ih (Nat.le_succ _)
    · rw [List.dropWhile_cons, if_neg h]

theorem pyStripRight_append_space (l : List Char) (c : Char)
    (hc : isPySpace c = true) :
    pyStripRight (l ++ [c]) = pyStripRight l := by
  induction l with
  | nil => simp [pyStripRight, hc]
  | cons a as ih =>
    simp only [List.cons_append]
    cases h : pyStripRight as with
    | nil => simp [pyStripRight, ih, h]
    | cons d ds => simp [pyStripRight, ih, h]

theorem head_not_p_of_dropWhile_eq (p : Char → Bool) (c : Char)
    (cs : List Char) (h : List.dropWhile p (c :: cs) = c :: cs) :
    p c = false := by
  by_cases hc : p c
  · exfalso
    rw [List.dropWhile_cons, if_pos hc] at h
    have h1 := congrArg List.length h
    have h2 : (List.dropWhile p cs).length ≤ cs.length :=
      length_dropWhile_le p cs
    simp at h1
    omega
  · simpa using hc

theorem dropWhile_pyStripRight (p : Char → Bool) (l : List Char)
    (h : List.dropWhile p l = l) :
    List.dropWhile p (pyStripRight l) = pyStripRight l := by
  cases l with
  | nil => rfl
  | cons c cs =>
    have hc := head_not_p_of_dropWhile_eq p c cs h
    rcases pyStripRight_cons c cs with h2 | ⟨r, h2⟩
    · rw [h2]; rfl
    · rw [h2, List.dropWhile_cons, if_neg (by simp [hc])]

theorem pyStrip_strip_newline (l : List Char) :
    pyStrip (pyStrip l ++ ['\n']) = pyStrip l := by
  unfold pyStrip pyStripLeft
  have hA : List.dropWhile isPySpace
      (pyStripRight (List.dropWhile isPySpace l))
      = pyStripRight (List.dropWhile isPySpace l) :=
    dropWhile_pyStripRight isPySpace _ (dropWhile_idem isPySpace l)
  have hB : pyStripRight (pyStripRight (List.dropWhile isPySpace l))
      = pyStripRight (List.dropWhile isPySpace l) :=
    pyStripRight_idem _
  cases ht : pyStripRight (List.dropWhile isPySpace l) with
  | nil => rfl
  | cons c cs =>
    rw [ht] at hA hB
    have hc := head_not_p_of_dropWhile_eq isPySpace c cs hA
    rw [List.cons_append, List.dropWhile_cons, if_neg (by simp [hc])]
    rw [← List.cons_append]
    rw [pyStripRight_append_space (c :: cs) '\n' (by decide)]
    exact hB

theorem pyStripS_strip_newline (s : String) :
    pyStripS (pyStripS s ++ "\n") = pyStripS s := by
  show pyStripS ⟨pyStrip s.data ++ ['\n']⟩ = pyStripS s
  unfold pyStripS
  rw [pyStrip_strip_newline]

theorem markerSpan_of_findSub_none (pat reply : List Char)
    (h : findSub pat reply = Option.none) :
    markerSpan pat reply = (reply.length, reply.length) := by
  unfold markerSpan
  rw [h]

theorem react_parse_eq_act_ok (pcc : CallExtractor) (aP tP fP : List Char)
    (fss : Option (List Char)) (reply : List Char) (r : ParsedCall)
    (hlt : (markerSpan aP reply).1 < (markerSpan fP reply).1)
    (hok : pcc (pyStrip (reply.drop (markerSpan aP reply).2)) = Except.ok r) :
    react_parse pcc aP tP fP fss reply
      = { is_finished := r.fn == "Finish"
          thought := thoughtBefore tP reply (markerSpan aP reply).1
          action := some ⟨r.fn, r.args, r.kwargs⟩
          observation := Option.none
          fmt := r.fmt } := by
  simp only [react_parse]
  rw [if_pos hlt, hok]
  unfold thoughtBefore
  by_cases hth : (markerSpan tP reply).1 < (markerSpan aP reply).1
  · rw [if_pos hth, if_pos hth]
  · rw [if_neg hth, if_neg hth]

theorem react_parse_eq_act_err (pcc : CallExtractor) (aP tP fP : List Char)
    (fss : Option (List Char)) (reply : List Char) (e : String)
    (hlt : (markerSpan aP reply).1 < (markerSpan fP reply).1)
    (herr : pcc (pyStrip (reply.drop (markerSpan aP reply).2))
      = Except.error e) :
    react_parse pcc aP tP fP fss reply = errorStep e := by
  simp only [react_parse]
  rw [if_pos hlt, herr]

theorem react_parse_eq_finish (pcc : CallExtractor) (aP tP fP : List Char)
    (fss : Option (List Char)) (reply : List Char)
    (hlt : (markerSpan fP reply).1 < (markerSpan aP reply).1) :
    react_parse pcc aP tP fP fss reply
      = { is_finished := true
          thought := thoughtBefore tP reply (markerSpan fP reply).1
          action := Option.none
          observation := some
            ⟨finishAnswer fss (reply.drop (markerSpan fP reply).2)⟩
          fmt := Option.none } := by
  simp only [react_parse]
  rw [if_neg (Nat.lt_asymm hlt), if_pos hlt]
  unfold thoughtBefore finishAnswer
  by_cases hth : (markerSpan tP reply).1 < (markerSpan fP reply).1
  · rw [if_pos hth, if_pos hth]
  · rw [if_neg hth, if_neg hth]

theorem react_parse_eq_none_found (pcc : CallExtractor) (aP tP fP : List Char)
    (fss : Option (List Char)) (reply : List Char)
    (h1 : ¬ (markerSpan aP reply).1 < (markerSpan fP reply).1)
    (h2 : ¬ (markerSpan fP reply).1 < (markerSpan aP reply).1) :
    react_parse pcc aP tP fP fss reply
      = errorStep ("Didn't find " ++ (⟨aP⟩ : String) ++ " or "
          ++ (⟨fP⟩ : String)) := by
  simp only [react_parse]
  rw [if_neg h1, if_neg h2]

theorem sample_force (parse : String → ReActStep) (max_steps : Nat)
    (run_tool : ToolCall → String) (state : ReActState) (reply : String)
    (h : max_steps ≤ state.updates.length) :
    sample_single_next_step parse max_steps run_tool state reply
      = ({ is_finished := true, thought := "", action := Option.none,
           observation := some (pyStripS reply), fmt := Option.none }, []) := by
  simp only [sample_single_next_step]
  rw [if_pos h, pyStripS_strip_newline]

theorem sample_not_force (parse : String → ReActStep) (max_steps : Nat)
    (run_tool : ToolCall → String) (state : ReActState) (reply : String)
    (h : ¬ max_steps ≤ state.updates.length) :
    sample_single_next_step parse max_steps run_tool state reply
      = (match (parse (pyStripS reply ++ "\n")).action with
         | some a =>
           ({ parse (pyStripS reply ++ "\n") with
              observation := some (run_tool ⟨a.function_name, a.args, a.kwargs⟩) },
            [(⟨a.function_name, a.args, a.kwargs⟩ : ToolCall)])
         | Option.none => (parse (pyStripS reply ++ "\n"), [])) := by
  simp only [sample_single_next_step]
  rw [if_neg h]

theorem is_finished_state_append (s : ReActState) (x : ReActStep) :
    is_finished_state { s with updates := s.updates ++ [x] }
      = x.is_finished := by
  unfold is_finished_state
  rw [List.getLast?_concat]

theorem advance_of_finished (parse : String → ReActStep) (max_steps : Nat)
    (run_tool : ToolCall → String) (replies : ReActState → String)
    (s : ReActState) (h : is_finished_state s = true) :
    advance parse max_steps run_tool replies s = s := by
  unfold advance
  rw [if_pos h]

theorem advance_of_not_finished (parse : String → ReActStep) (max_steps : Nat)
    (run_tool : ToolCall → String) (replies : ReActState → String)
    (s : ReActState) (h : is_finished_state s = false) :
    advance parse max_steps run_tool replies s
      = { s with updates := s.updates
          ++ [(sample_single_next_step parse max_steps run_tool s
                (replies s)).1] } := by
  unfold advance
  rw [if_neg (by simp [h])]

theorem advance_finished_of_budget (parse : String → ReActStep)
    (max_steps : Nat) (run_tool : ToolCall → String)
    (replies : ReActState → String) (s : ReActState)
    (h : max_steps ≤ s.updates.length) :
    is_finished_state (advance parse max_steps run_tool replies s) = true := by
  cases hf : is_finished_state s with
  | true => rw [advance_of_finished parse max_steps run_tool replies s hf]; exact hf
  | false =>
    rw [advance_of_not_finished parse max_steps run_tool replies s hf,
      sample_force parse max_steps run_tool s (replies s) h]
    rw [is_finished_state_append]

theorem run_loop_succ (parse : String → ReActStep) (max_steps : Nat)
    (run_tool : ToolCall → String) (replies : ReActState → String)
    (k : Nat) (s : ReActState) :
    run_loop parse max_steps run_tool replies (k + 1) s
      = advance parse max_steps run_tool replies
          (run_loop parse max_steps run_tool replies k s) := rfl

theorem run_loop_finished_or_length (parse : String → ReActStep)
    (max_steps : Nat) (run_tool : ToolCall → String)
    (replies : ReActState → String) (inputs : String) (k : Nat) :
    is_finished_state (run_loop parse max_steps run_tool replies k
        (initialize_state inputs)) = true
    ∨ (run_loop parse max_steps run_tool replies k
        (initialize_state inputs)).updates.length = k := by
  induction k with
  | zero => right; rfl
  | succ k ih =>
    rw [run_loop_succ]
    cases hf : is_finished_state (run_loop parse max_steps run_tool replies k
        (initialize_state inputs)) with
    | true =>
      left
      rw [advance_of_finished _ _ _ _ _ hf]
      exact hf
    | false =>
      rcases ih with hfin | hlen
      · rw [hfin] at hf; exact absurd hf (by simp)
      · right
        rw [advance_of_not_finished _ _ _ _ _ hf]
        simp [hlen]

/-- Claim C1 counterexample: the recovered error step for the marker-less
reply "I am not sure.\n" has an absent action, a non-empty observation, and
`is_finished = false`, contradicting the claimed invariant that an absent
action with a present observation forces `is_finished = true`. -/
theorem react_parse_no_action_counterexample :
    react_parse_default specParseCall "I am not sure.\n"
      = { is_finished := false, thought := "", action := Option.none,
          observation := some "ERROR: Didn't find [Act]: or [Finish]:",
          fmt := Option.none }
    ∧ ("ERROR: Didn't find [Act]: or [Finish]:" : String) ≠ "" :=
  ⟨by decide, by decide⟩

/-- Claim C1 (amended): for every step record produced by the reply parser,
if the step's action is absent and its observation is present, then either
`is_finished` is true (a finish step, the observation being the final
answer), or the step is a recovered parse-error step: `is_finished` is false
and the observation is the fixed error marker concatenated with a failure
description. -/
theorem react_parse_no_action_step_invariant (pcc : CallExtractor)
    (aP tP fP : List Char) (fss : Option (List Char)) (reply : List Char)
    (o : String)
    (hact : (react_parse pcc aP tP fP fss reply).action = Option.none)
    (hobs : (react_parse pcc aP tP fP fss reply).observation = some o) :
    (react_parse pcc aP tP fP fss reply).is_finished = true
    ∨ ((react_parse pcc aP tP fP fss reply).is_finished = false
       ∧ ∃ msg, o = ERROR_STRING ++ ": " ++ msg) := by
  by_cases h1 : (markerSpan aP reply).1 < (markerSpan fP reply).1
  · cases hre : pcc (pyStrip (reply.drop (markerSpan aP reply).2)) with
    | ok r =>
      rw [react_parse_eq_act_ok pcc aP tP fP fss reply r h1 hre] at hact
      simp at hact
    | error e =>
      rw [react_parse_eq_act_err pcc aP tP fP fss reply e h1 hre] at hobs ⊢
      right
      exact ⟨rfl, e, by simpa [errorStep] using hobs.symm⟩
  · by_cases h2 : (markerSpan fP reply).1 < (markerSpan aP reply).1
    · rw [react_parse_eq_finish pcc aP tP fP fss reply h2]
      left; rfl
    · rw [react_parse_eq_none_found pcc aP tP fP fss reply h1 h2] at hobs ⊢
      right
      refine ⟨rfl, "Didn't find " ++ (⟨aP⟩ : String) ++ " or "
        ++ (⟨fP⟩ : String), ?_⟩
      simpa [errorStep] using hobs.symm

/-- Witness for the amended claim C1 at the marker-less reply. -/
theorem react_parse_no_action_step_invariant_witness :
    (react_parse_default specParseCall "I am not sure.\n").is_finished = true
    ∨ ((react_parse_default specParseCall "I am not sure.\n").is_finished
          = false
       ∧ ∃ msg, "ERROR: Didn't find [Act]: or [Finish]:"
          = ERROR_STRING ++ ": " ++ msg) :=
  react_parse_no_action_step_invariant specParseCall "[Act]:".data
    "[Thought]:".data "[Finish]:".data (some "\n\n".data)
    "I am not sure.\n".data "ERROR: Didn't find [Act]: or [Finish]:"
    (by decide) (by decide)

/-- Claim C2: for every `max_steps = N`, the controller loop started from the
initial state (empty updates) is FINISHED after `N + 1` iterations, for every
parser, tool environment and family of model replies, and all later
iterations leave the state unchanged (the loop never runs more than `N + 1`
effective iterations). -/
theorem run_loop_bounded_termination (parse : String → ReActStep)
    (run_tool : ToolCall → String) (replies : ReActState → String)
    (N : Nat) (inputs : String) :
    is_finished_state (run_loop parse N run_tool replies (N + 1)
        (initialize_state inputs)) = true
    ∧ ∀ k, run_loop parse N run_tool replies (N + 1 + k)
          (initialize_state inputs)
        = run_loop parse N run_tool replies (N + 1)
          (initialize_state inputs) := by
  have hmain : is_finished_state (run_loop parse N run_tool replies (N + 1)
      (initialize_state inputs)) = true := by
    rcases run_loop_finished_or_length parse N run_tool replies inputs N
      with hfin | hlen
    · rw [run_loop_succ, advance_of_finished _ _ _ _ _ hfin]
      exact hfin
    · rw [run_loop_succ]
      exact advance_finished_of_budget _ _ _ _ _ (le_of_eq hlen.symm)
  refine ⟨hmain, ?_⟩
  intro k
  induction k with
  | zero => rfl
  | succ k ih =>
    have he : N + 1 + (k + 1) = (N + 1 + k) + 1 := rfl
    rw [he, run_loop_succ, ih, advance_of_finished _ _ _ _ _ hmain]

/-- Claim C3: every trajectory reachable from the initial state by appending
controller-produced steps only while not FINISHED has all steps except
possibly the last unfinished: a finished step can only be the last element,
and nothing is appended after it. -/
theorem reachable_last_is_finished (s : ReActState) (h : Reachable s) :
    all_but_last_unfinished s = true := by
  induction h with
  | init inputs => rfl
  | step s parse max_steps run_tool reply hr hf ih =>
    unfold all_but_last_unfinished at ih ⊢
    simp only [List.dropLast_concat]
    rcases List.eq_nil_or_concat s.updates with h0 | ⟨as, a, h0⟩
    · rw [h0]; rfl
    · rw [List.concat_eq_append] at h0
      unfold is_finished_state at hf
      rw [h0] at ih hf ⊢
      rw [List.dropLast_concat] at ih
      simp only [List.getLast?_concat] at hf
      simp [List.all_append, ih, hf]

/-- Witness for claim C3: a concrete one-step reachable trajectory. -/
theorem reachable_last_is_finished_witness :
    all_but_last_unfinished
      { initialize_state "q" with
        updates := (initialize_state "q").updates
          ++ [(sample_single_next_step (react_parse_default specParseCall) 10
                (toolEnvConst "obs") (initialize_state "q")
                "[Act]: Search(\"x\")").1] } = true :=
  reachable_last_is_finished _
    (Reachable.step (initialize_state "q") (react_parse_default specParseCall)
      10 (toolEnvConst "obs") "[Act]: Search(\"x\")" (Reachable.init "q") rfl)

/-- Claim C4: when neither the action marker nor the finish marker occurs in
the reply, and likewise when the call extraction fails with a validation
error, the parser does not abort: it returns the recovered error step —
`is_finished = false`, no action, observation equal to the fixed error
marker concatenated with the failure description. -/
theorem react_parse_error_recovery (pcc : CallExtractor)
    (aP tP fP : List Char) (fss : Option (List Char)) (reply : List Char) :
    ((findSub aP reply = Option.none ∧ findSub fP reply = Option.none) →
      react_parse pcc aP tP fP fss reply
        = errorStep ("Didn't find " ++ (⟨aP⟩ : String) ++ " or "
            ++ (⟨fP⟩ : String)))
    ∧ ∀ e, (markerSpan aP reply).1 < (markerSpan fP reply).1 →
        pcc (pyStrip (reply.drop (markerSpan aP reply).2)) = Except.error e →
        react_parse pcc aP tP fP fss reply = errorStep e := by
  constructor
  · rintro ⟨h1, h2⟩
    apply react_parse_eq_none_found
    · rw [markerSpan_of_findSub_none aP reply h1,
        markerSpan_of_findSub_none fP reply h2]
      exact Nat.lt_irrefl _
    · rw [markerSpan_of_findSub_none aP reply h1,
        markerSpan_of_findSub_none fP reply h2]
      exact Nat.lt_irrefl _
  · intro e hlt herr
    exact react_parse_eq_act_err pcc aP tP fP fss reply e hlt herr

/-- Witness for claim C4 at the marker-less reply "I am not sure.\n". -/
theorem react_parse_error_recovery_witness :
    react_parse_default specParseCall "I am not sure.\n"
      = errorStep "Didn't find [Act]: or [Finish]:" :=
  Eq.trans
    ((react_parse_error_recovery specParseCall "[Act]:".data "[Thought]:".data
        "[Finish]:".data (some "\n\n".data) "I am not sure.\n".data).1
      ⟨by decide, by decide⟩)
    (by decide)

/-- Claim C5: when the action marker's first match strictly precedes the
finish marker's position (absent markers counting as end of text) and the
extractor succeeds, the parsed step's action is the extracted call, its
observation is absent, its format comes from the extractor, `is_finished`
holds exactly when the extracted name is "Finish", and the thought is the
trimmed text between the thought marker's end and the action marker's start
when the thought marker precedes it, else empty. -/
theorem react_parse_action_first (pcc : CallExtractor) (aP tP fP : List Char)
    (fss : Option (List Char)) (reply : List Char) (r : ParsedCall)
    (hlt : (markerSpan aP reply).1 < (markerSpan fP reply).1)
    (hok : pcc (pyStrip (reply.drop (markerSpan aP reply).2)) = Except.ok r) :
    react_parse pcc aP tP fP fss reply
      = { is_finished := r.fn == "Finish"
          thought := thoughtBefore tP reply (markerSpan aP reply).1
          action := some ⟨r.fn, r.args, r.kwargs⟩
          observation := Option.none
          fmt := r.fmt } :=
  react_parse_eq_act_ok pcc aP tP fP fss reply r hlt hok

/-- Witness for claim C5: the concrete example with the default markers. -/
theorem react_parse_action_first_witness :
    react_parse_default specParseCall "[Thought]: t\n[Act]: Search(\"x\")\n"
      = { is_finished := false, thought := "t",
          action := some ⟨"Search", ["x"], []⟩,
          observation := Option.none,
          fmt := some ArgumentFormat.PYTHON } :=
  Eq.trans
    (react_parse_action_first specParseCall "[Act]:".data "[Thought]:".data
      "[Finish]:".data (some "\n\n".data)
      "[Thought]: t\n[Act]: Search(\"x\")\n".data
      ⟨"Search", ["x"], [], some ArgumentFormat.PYTHON⟩ (by decide) rfl)
    (by decide)

/-- Claim C6 counterexample: for the reply "[Finish]:\n\nanswer" the source
first trims the text after the finish marker (removing the leading
"\n\n") and only then truncates, producing "answer", while the claim's
truncate-then-trim reading produces "". -/
theorem react_parse_finish_trim_counterexample :
    (react_parse_default specParseCall "[Finish]:\n\nanswer").observation
        = some "answer"
    ∧ finishObservationClaimed "[Finish]:".data "\n\n".data
        "[Finish]:\n\nanswer".data = some ""
    ∧ (react_parse_default specParseCall "[Finish]:\n\nanswer").observation
        ≠ finishObservationClaimed "[Finish]:".data "\n\n".data
            "[Finish]:\n\nanswer".data :=
  ⟨by decide, by decide, by decide⟩

/-- Claim C6 (amended): when the finish marker strictly precedes the action
marker (absent markers counting as end of text) and a non-empty final stop
sequence is configured, the result has `is_finished = true`, no action, and
observation equal to the text after the finish marker, first trimmed, then
truncated at the first occurrence of the stop sequence, then trimmed
again. -/
theorem react_parse_finish_first (pcc : CallExtractor) (aP tP fP : List Char)
    (fss_s : List Char) (reply : List Char)
    (hlt : (markerSpan fP reply).1 < (markerSpan aP reply).1)
    (hne : fss_s.isEmpty = false) :
    react_parse pcc aP tP fP (some fss_s) reply
      = { is_finished := true
          thought := thoughtBefore tP reply (markerSpan fP reply).1
          action := Option.none
          observation := some ⟨pyStrip (takeBeforeFirst fss_s
            (pyStrip (reply.drop (markerSpan fP reply).2)))⟩
          fmt := Option.none } := by
  rw [react_parse_eq_finish pcc aP tP fP (some fss_s) reply hlt]
  simp only [finishAnswer]
  rw [if_neg (by simp [hne])]

/-- Witness for the amended claim C6: the "238 meters" example. -/
theorem react_parse_finish_first_witness :
    react_parse_default specParseCall "[Finish]: 238 meters\n\n"
      = { is_finished := true, thought := "", action := Option.none,
          observation := some "238 meters", fmt := Option.none } :=
  Eq.trans
    (react_parse_finish_first specParseCall "[Act]:".data "[Thought]:".data
      "[Finish]:".data "\n\n".data "[Finish]: 238 meters\n\n".data
      (by decide) (by decide))
    (by decide)

/-- Claim C7: on an iteration whose state already has at least `max_steps`
steps, the controller produces the forced finish step — `is_finished =
true`, empty thought, no action, observation equal to the trimmed reply
text — without parsing (the result does not depend on the parser) and
without invoking the tool environment (no tool call is recorded and the
result does not depend on `run_tool`). -/
theorem sample_single_next_step_force_finish (parse : String → ReActStep)
    (max_steps : Nat) (run_tool : ToolCall → String) (state : ReActState)
    (reply : String) (h : max_steps ≤ state.updates.length) :
    sample_single_next_step parse max_steps run_tool state reply
      = ({ is_finished := true, thought := "", action := Option.none,
           observation := some (pyStripS reply), fmt := Option.none }, []) :=
  sample_force parse max_steps run_tool state reply h

/-- Witness for claim C7 with `max_steps = 0` on the initial state. -/
theorem sample_single_next_step_force_finish_witness :
    sample_single_next_step (react_parse_default specParseCall) 0
        (toolEnvConst "TOOL_RESULT") (initialize_state "q")
        "  some raw reply \n\n"
      = ({ is_finished := true, thought := "", action := Option.none,
           observation := some "some raw reply", fmt := Option.none }, []) :=
  Eq.trans
    (sample_single_next_step_force_finish (react_parse_default specParseCall)
      0 (toolEnvConst "TOOL_RESULT") (initialize_state "q")
      "  some raw reply \n\n" (by decide))
    (by decide)

/-- Claim C8: output extraction returns the string form of the last step's
observation when the state is FINISHED (last step exists and is finished),
and the fixed "no answer" sentinel string when the state is not FINISHED —
independent of the observations of any existing steps. -/
theorem extract_output_gating (state : ReActState) :
    (∀ last, state.updates.getLast? = some last → last.is_finished = true →
        extract_output state = pyStr last.observation)
    ∧ (is_finished_state state = false → extract_output state = "None") := by
  constructor
  · intro last hl hf
    unfold extract_output
    simp [hl, hf]
  · intro h
    unfold extract_output
    unfold is_finished_state at h
    cases hl : state.updates.getLast? with
    | none => simp [hl, pyStr]
    | some st =>
      simp only [hl] at h
      simp [hl, h, pyStr]

/-- Witness for claim C8: a finished and an unfinished concrete state. -/
theorem extract_output_gating_witness :
    extract_output
        { inputs := "q",
          updates := [{ is_finished := true, thought := "",
                        action := Option.none, observation := some "42",
                        fmt := Option.none }] } = "42"
    ∧ extract_output
        { inputs := "q",
          updates := [{ is_finished := false, thought := "",
                        action := Option.none, observation := some "stale",
                        fmt := Option.none }] } = "None" :=
  ⟨Eq.trans ((extract_output_gating _).1 _ rfl rfl) rfl,
   (extract_output_gating _).2 rfl⟩

/-- Claim C9: on a non-forced iteration whose parsed step carries an action
named "Finish", the controller still invokes the tool environment with name
"Finish" and the call's arguments, and stores the environment's returned
value as the step's observation. -/
theorem sample_single_next_step_runs_finish_tool (parse : String → ReActStep)
    (max_steps : Nat) (run_tool : ToolCall → String) (state : ReActState)
    (reply : String) (a : FunctionCall)
    (hbudget : state.updates.length < max_steps)
    (hact : (parse (pyStripS reply ++ "\n")).action = some a)
    (hfn : a.function_name = "Finish") :
    sample_single_next_step parse max_steps run_tool state reply
      = ({ parse (pyStripS reply ++ "\n") with
           observation := some (run_tool ⟨"Finish", a.args, a.kwargs⟩) },
         [(⟨"Finish", a.args, a.kwargs⟩ : ToolCall)]) := by
  rw [← hfn]
  rw [sample_not_force parse max_steps run_tool state reply (by omega)]
  rw [hact]

/-- Witness for claim C9: an action-style finish reply; the observation is
the environment's value, not text from the reply. -/
theorem sample_single_next_step_runs_finish_tool_witness :
    sample_single_next_step (react_parse_default specParseCall) 10
        (toolEnvConst "TOOL_RESULT") (initialize_state "q")
        "[Act]: Finish(\"done\")"
      = ({ is_finished := true, thought := "",
           action := some ⟨"Finish", ["done"], []⟩,
           observation := some "TOOL_RESULT",
           fmt := some ArgumentFormat.PYTHON },
         [(⟨"Finish", ["done"], []⟩ : ToolCall)]) :=
  Eq.trans
    (sample_single_next_step_runs_finish_tool
      (react_parse_default specParseCall) 10 (toolEnvConst "TOOL_RESULT")
      (initialize_state "q") "[Act]: Finish(\"done\")"
      ⟨"Finish", ["done"], []⟩ (by decide) (by decide) rfl)
    (by decide)

/-- Claim C10: when the call extraction fails with a validation error, the
recovered error step has an empty thought even if a thought section preceded
the action marker: the extracted thought is discarded on error recovery. -/
theorem react_parse_error_discards_thought (pcc : CallExtractor)
    (aP tP fP : List Char) (fss : Option (List Char)) (reply : List Char)
    (e : String)
    (hact : (markerSpan aP reply).1 < (markerSpan fP reply).1)
    (hth : (markerSpan tP reply).1 < (markerSpan aP reply).1)
    (herr : pcc (pyStrip (reply.drop (markerSpan aP reply).2))
      = Except.error e) :
    (react_parse pcc aP tP fP fss reply).thought = ""
    ∧ react_parse pcc aP tP fP fss reply = errorStep e := by
  have h := react_parse_eq_act_err pcc aP tP fP fss reply e hact herr
  exact ⟨by rw [h]; rfl, h⟩

/-- Witness for claim C10: a reply with a thought section and a malformed
call. -/
theorem react_parse_error_discards_thought_witness :
    (react_parse_default specParseCall "[Thought]: t\n[Act]: ???\n").thought
      = "" :=
  (react_parse_error_discards_thought specParseCall "[Act]:".data
    "[Thought]:".data "[Finish]:".data (some "\n\n".data)
    "[Thought]: t\n[Act]: ???\n".data
    "Could not parse a function call from: ???"
    (by decide) (by decide) rfl).1

end OneTwo
